import Mathlib

/-!
Verification development for the API-identity reconciliation engine of
`ci/ray_ci/doc` (files `api.py` and `cmd_check_api_discrepancy.py`).

The Python code is shallowly embedded:
* Python `str` values become Lean `String` (a wrapper around `List Char`);
  the handful of `str` methods used by the source (`strip`, `startswith`,
  `removeprefix`, `splitlines`, `rpartition`, `split`, slicing, `in`) are
  re-implemented below on `List Char`, restricted to `\n` line endings and
  ASCII whitespace, which is all the directive grammars use.
* `importlib.import_module` / `getattr` reflection is the one collaborator
  outside the repository; it is abstracted as an explicit environment `Env`
  of lookup functions returning `Except PyExn _`, where `PyExn`
  distinguishes the exception classes the source catches
  (`ModuleNotFoundError`, `AttributeError`) from those it does not
  (in particular the `ValueError` that `import_module("")` raises).
* Python `set`s of `API` values (whose `__hash__`/`__eq__` use
  `get_canonical_name`) are modelled as lists with membership and insertion
  keyed by an abstract total canonicalization function `canon`.
-/

/-- Python `str.strip()` (whitespace on both ends; the documents involved
only use ASCII whitespace). -/
def pyStrip (s : String) : String :=
  ⟨((s.data.dropWhile Char.isWhitespace).reverse.dropWhile Char.isWhitespace).reverse⟩

/-- Python `s.startswith(p)`. -/
def pyStartsWith (s p : String) : Bool :=
  p.data.isPrefixOf s.data

/-- Python `s.removeprefix(p)`. -/
def pyStripPre (s p : String) : String :=
  if p.data.isPrefixOf s.data then ⟨s.data.drop p.data.length⟩ else s

/-- Python slicing `s[n:]` (by characters). -/
def pyDropChars (s : String) (n : Nat) : String :=
  ⟨s.data.drop n⟩

/-- The newline character. -/
def nlChar : Char := Char.ofNat 10

/-- The newline as a one-character string. -/
def nlStr : String := ⟨[nlChar]⟩

/-- Python `str.splitlines()` restricted to `\n` separators: split on
newlines, with no entry for a trailing newline and no entry at all for the
empty string. -/
def pySplitlines (s : String) : List String :=
  let parts := (s.data.splitOn nlChar).map (fun l => String.mk l)
  match parts.getLast? with
  | some lst => if lst.isEmpty then parts.dropLast else parts
  | none => parts

/-- Python substring test `sub in s`. -/
def pyContains (s sub : String) : Bool :=
  (List.range (s.data.length + 1)).any (fun i => sub.data.isPrefixOf (s.data.drop i))

/-- Python `re.match(r"\s", line)`: the line starts with a whitespace
character. -/
def startsWithWs (s : String) : Bool :=
  match s.data with
  | [] => false
  | c :: _ => c.isWhitespace

/-- The dot separator as a string. -/
def dotStr : String := "."

/-- The dot separator as a character. -/
def dotChar : Char := Char.ofNat 46

/-- Python `name.rpartition(".")`, keeping the pieces before and after the
last dot; `("", s)` when there is no dot, exactly as in Python where the
head of the triple is empty. -/
def rpartitionDot (s : String) : String × String :=
  let r := s.data.reverse
  let tailRev := r.takeWhile (fun c => c != dotChar)
  let headRev := r.dropWhile (fun c => c != dotChar)
  match headRev with
  | [] => (⟨[]⟩, s)
  | _ :: hs => (⟨hs.reverse⟩, ⟨tailRev.reverse⟩)

/-- Python f-string `f"{current_module}.{x}" if current_module else x`:
`Optional[str]` truthiness treats both `None` and `""` as falsy. -/
def pyJoinModule (current_module : Option String) (x : String) : String :=
  match current_module with
  | none => x
  | some m => if m.isEmpty then x else m ++ dotStr ++ x

/-- Annotation tags of `api.py` (`AnnotationType`). -/
inductive AnnotationType where
  | PUBLIC_API
  | DEVELOPER_API
  | DEPRECATED
  | UNKNOWN
deriving DecidableEq, Repr

/-- Code kinds of `api.py` (`CodeType`). -/
inductive CodeType where
  | CLASS
  | FUNCTION
deriving DecidableEq, Repr

/-- The `API` dataclass of `api.py`. -/
structure API where
  name : String
  annotation_type : AnnotationType
  code_type : CodeType
deriving DecidableEq, Repr

/-- Header constant `_SPHINX_AUTOSUMMARY_HEADER`. -/
def sphinxAutosummaryHeader : String := ".. autosummary::"

/-- Header constant `_SPHINX_AUTOCLASS_HEADER`. -/
def sphinxAutoclassHeader : String := ".. autoclass::"

/-- Header constant `_SPHINX_CURRENTMODULE_HEADER` of
`cmd_check_api_discrepancy.py`. -/
def sphinxCurrentmoduleHeader : String := ".. currentmodule::"

/-- Marker constant `_SPHINX_AUTODOC_SHORTNAME`. -/
def sphinxAutodocShortname : String := "~"

/-- Option-line marker `":"`. -/
def colonStr : String := ":"

/-- Underscore prefix used by `has_private_name`. -/
def underscoreStr : String := "_"

/-- Internal-namespace marker `"._internal."` used by `has_private_name`. -/
def internalMarker : String := "._internal."

/-- Python `self.name.split(".")[-1].startswith("_") or "._internal." in
self.name` (`API.has_private_name`). -/
def API.has_private_name (a : API) : Bool :=
  let segments := (a.name.data.splitOn dotChar).map (fun l => String.mk l)
  let lastSegment := segments.getLastD ⟨[]⟩
  pyStartsWith lastSegment underscoreStr || pyContains a.name internalMarker

/-- Python `API.is_public`. -/
def API.is_public (a : API) : Bool :=
  a.annotation_type == AnnotationType.PUBLIC_API

/-- Python `API.is_developer`. -/
def API.is_developer (a : API) : Bool :=
  a.annotation_type == AnnotationType.DEVELOPER_API

/-- Python `API.is_deprecated`. -/
def API.is_deprecated (a : API) : Bool :=
  a.annotation_type == AnnotationType.DEPRECATED

/-- Captured identifier of an autosummary reference line:
`line.strip().removeprefix(_SPHINX_AUTODOC_SHORTNAME)`. -/
def summaryAttr (line : String) : String :=
  pyStripPre (pyStrip line) sphinxAutodocShortname

/-- Loop body of `API.from_autosummary`: scan the lines, skipping the
header repeated verbatim, option lines and blank lines, stopping at the
first non-blank non-indented line, and emitting one `Function` reference
per remaining (indented) line. -/
def autosummaryGo (current_module : Option String) : List String → List API
  | [] => []
  | line :: rest =>
    if line == sphinxAutosummaryHeader then autosummaryGo current_module rest
    else if pyStartsWith (pyStrip line) colonStr then autosummaryGo current_module rest
    else if (pyStrip line).isEmpty then autosummaryGo current_module rest
    else if !startsWithWs line then []
    else
      { name := pyJoinModule current_module (summaryAttr line)
        annotation_type := AnnotationType.PUBLIC_API
        code_type := CodeType.FUNCTION } :: autosummaryGo current_module rest

/-- Python `API.from_autosummary`. -/
def from_autosummary (doc : String) (current_module : Option String) : List API :=
  match pySplitlines doc with
  | [] => []
  | first :: rest =>
    if pyStrip first == sphinxAutosummaryHeader then
      autosummaryGo current_module (first :: rest)
    else []

/-- Captured identifier of an autoclass directive: the text after the
header, stripped, with the shortname marker removed. -/
def autoclassIdent (d : String) : String :=
  pyStripPre (pyStrip (pyDropChars d sphinxAutoclassHeader.length)) sphinxAutodocShortname

/-- Python `API.from_autoclass`. -/
def from_autoclass (doc : String) (current_module : Option String) : Option API :=
  let d := pyStrip doc
  if !pyStartsWith d sphinxAutoclassHeader then none
  else
    some
      { name := pyJoinModule current_module (autoclassIdent d)
        annotation_type := AnnotationType.PUBLIC_API
        code_type := CodeType.CLASS }

/-- Per-line scan of the outer loop of `parse_autodoc_directives`: update
the current module on a `currentmodule` directive, emit the (possibly
`None`) `from_autoclass` result on an `autoclass` directive, and open an
autosummary block (seeded with this line) on an `autosummary` header. -/
def scanLine (module : Option String) (line : String) :
    Option String × List (Option API) × Option String :=
  let moduleNext :=
    if pyStartsWith line sphinxCurrentmoduleHeader then
      some (pyStrip (pyDropChars line sphinxCurrentmoduleHeader.length))
    else module
  let classApis :=
    if pyStartsWith line sphinxAutoclassHeader then [from_autoclass line moduleNext]
    else []
  let blockStart :=
    if pyStartsWith line sphinxAutosummaryHeader then some line else none
  (moduleNext, classApis, blockStart)

/-- Block terminator test of the inner loop of `parse_autodoc_directives`:
`line.strip() and not re.match(r"\s", line)`. -/
def isBlockEnd (line : String) : Bool :=
  !(pyStrip line).isEmpty && !startsWithWs line

/-- Line loop of `parse_autodoc_directives` over the file's lines (without
trailing newlines; the accumulated block text joins them back with `\n`
before handing it to `from_autosummary`, as the Python inner `while`
accumulates the raw lines). The second argument holds the text of an open
autosummary block, if any. The Python inner loop appends the terminator
line to the block text, breaks, and then re-examines that same line in the
outer loop; the `isBlockEnd` branch below reproduces both steps. -/
def parseLines (module : Option String) : Option String → List String → List (Option API)
  | none, [] => []
  | some doc, [] => (from_autosummary doc module).map some
  | some doc, line :: rest =>
    if isBlockEnd line then
      let emitted := (from_autosummary (doc ++ nlStr ++ line) module).map some
      let s := scanLine module line
      emitted ++ s.2.1 ++ parseLines s.1 s.2.2 rest
    else parseLines module (some (doc ++ nlStr ++ line)) rest
  | none, line :: rest =>
    let s := scanLine module line
    s.2.1 ++ parseLines s.1 s.2.2 rest

/-- Python `parse_autodoc_directives` on a file given as its list of lines:
run the line loop from an empty state and keep the truthy entries
(`[api for api in apis if api]`; an `API` dataclass instance is always
truthy, so the filter only removes `None`). -/
def parseAutodocDirectives (file : List String) : List API :=
  (parseLines none none file).filterMap id

/-- Exception classes relevant to `API.get_canonical_name`: the `except`
clauses catch exactly `ModuleNotFoundError` and `AttributeError`;
`importlib.import_module("")` raises `ValueError`, which is not caught. -/
inductive PyExn where
  | moduleNotFound
  | attributeError
  | valueError
deriving DecidableEq, Repr

/-- Whether an exception is caught by the
`except (ModuleNotFoundError, AttributeError)` clauses of
`get_canonical_name`. -/
def caughtExn : PyExn → Bool
  | PyExn.moduleNotFound => true
  | PyExn.attributeError => true
  | PyExn.valueError => false

/-- A reflected Python object as `get_canonical_name` sees it: its
`__module__`, `__qualname__` and `__name__` attributes. -/
structure PyObj where
  module_ : String
  qualname : String
  name_ : String
deriving DecidableEq, Repr

/-- The live reflection environment behind `importlib.import_module` and
`getattr`, given as explicit data: importing a module by name (a module is
identified by its name), reading a module attribute, and reading an
attribute of an object. Each lookup either succeeds or raises. -/
structure Env where
  importModule : String → Except PyExn Unit
  moduleAttr : String → String → Except PyExn PyObj
  objAttr : PyObj → String → Except PyExn PyObj

/-- First resolution attempt of `get_canonical_name`:
`module = importlib.import_module(modname); obj = getattr(module, objname)`
on the last-dot split of the name. -/
def attempt1 (env : Env) (name : String) : Except PyExn PyObj :=
  let p := rpartitionDot name
  match env.importModule p.1 with
  | Except.error e => Except.error e
  | Except.ok _ => env.moduleAttr p.1 p.2

/-- Second resolution attempt of `get_canonical_name`: split the container
once more, import the outer module, read the class, then read the method:
returns the class and the method. -/
def attempt2 (env : Env) (name : String) : Except PyExn (PyObj × PyObj) :=
  let p := rpartitionDot name
  let q := rpartitionDot p.1
  match env.importModule q.1 with
  | Except.error e => Except.error e
  | Except.ok _ =>
    match env.moduleAttr q.1 q.2 with
    | Except.error e => Except.error e
    | Except.ok cls =>
      match env.objAttr cls p.2 with
      | Except.error e => Except.error e
      | Except.ok meth => Except.ok (cls, meth)

/-- Python `API.get_canonical_name` as a function of the entry's name
(the method reads only `self.name`): first attempt, guarded fallback to
the second attempt, guarded fallback to the raw name; an uncaught
exception propagates as `Except.error`. -/
def canonicalNameOf (env : Env) (name : String) : Except PyExn String :=
  match attempt1 env name with
  | Except.ok obj => Except.ok (obj.module_ ++ dotStr ++ obj.qualname)
  | Except.error e1 =>
    if caughtExn e1 then
      match attempt2 env name with
      | Except.ok cm =>
        Except.ok (cm.1.module_ ++ dotStr ++ cm.1.qualname ++ dotStr ++ cm.2.name_)
      | Except.error e2 =>
        if caughtExn e2 then Except.ok name else Except.error e2
    else Except.error e1

/-- Python `API.get_canonical_name`. -/
def get_canonical_name (env : Env) (api : API) : Except PyExn String :=
  canonicalNameOf env api.name

/-- Python `API.__eq__`:
`self.get_canonical_name() == other.get_canonical_name()`, with exceptions
propagating. -/
def apiBeq (env : Env) (a b : API) : Except PyExn Bool := do
  let x ← get_canonical_name env a
  let y ← get_canonical_name env b
  pure (x == y)

/-- Python `API.__hash__` (`hash(self.get_canonical_name())`) for an
arbitrary string-hash function `hf`. -/
def apiHashWith (hf : String → Nat) (env : Env) (a : API) : Except PyExn Nat :=
  (get_canonical_name env a).map hf

/-- Lack of the dot separator inside a string. -/
def dotFree (s : String) : Bool :=
  s.data.all (fun c => c != dotChar)

/-- Coherence of a reflection environment, mirroring CPython reflection
semantics for well-behaved symbols: an object obtained as a module
attribute records a non-empty defining module and a non-empty dot-free
qualified name, lives at that recorded location (importing its module
succeeds and the same attribute lookup returns it), and its recorded
location is not itself importable as a module; an object obtained as an
attribute of another object records a non-empty dot-free `__name__` under
which the same holder yields it back. -/
structure Coherent (env : Env) : Prop where
  modAttrSelf : ∀ m a obj, env.moduleAttr m a = Except.ok obj →
    obj.module_ ≠ ⟨[]⟩ ∧ obj.qualname ≠ ⟨[]⟩ ∧ dotFree obj.qualname = true ∧
    env.importModule obj.module_ = Except.ok () ∧
    env.moduleAttr obj.module_ obj.qualname = Except.ok obj
  clsNotModule : ∀ m a obj, env.moduleAttr m a = Except.ok obj →
    env.importModule (obj.module_ ++ dotStr ++ obj.qualname) =
      Except.error PyExn.moduleNotFound
  objAttrSelf : ∀ o a meth, env.objAttr o a = Except.ok meth →
    meth.name_ ≠ ⟨[]⟩ ∧ dotFree meth.name_ = true ∧
    env.objAttr o meth.name_ = Except.ok meth

/-- Python `code_api_name in api_in_docs` for a dict given as an
association list (key membership). -/
def dictContains (d : List (String × API)) (k : String) : Bool :=
  d.any (fun q => q.1 == k)

/-- Membership of an entry in a Python `set` of `API` values: `__eq__` and
`__hash__` compare canonical names, abstracted by the total function
`canon`. -/
def setMem (canon : String → String) (a : API) (s : List API) : Bool :=
  s.any (fun b => canon b.name == canon a.name)

/-- Insertion into a Python `set` of `API` values (`set.add`): a no-op when
an entry with the same canonical name is already present. -/
def setAdd (canon : String → String) (s : List API) (a : API) : List API :=
  if s.any (fun b => canon b.name == canon a.name) then s else a :: s

/-- The six output sets of `_validate_documented_public_apis`, in the
order of the returned tuple. -/
structure ValidationResult where
  good_apis : List API
  private_documented_apis : List API
  deprecated_documented_apis : List API
  undocumented_public_apis : List API
  undocumented_deprecated_public_apis : List API
  public_but_private_name : List API
deriving DecidableEq, Repr

/-- Loop body of `_validate_documented_public_apis`, processing the pair
`(code_api_name, api)` against the accumulated sets. -/
def validateStep (canon : String → String) (api_in_docs : List (String × API))
    (r : ValidationResult) (p : String × API) : ValidationResult :=
  let api := p.2
  if api.is_public then
    if dictContains api_in_docs p.1 then
      { r with good_apis := setAdd canon r.good_apis api }
    else
      let r1 :=
        if api.has_private_name then
          { r with public_but_private_name := setAdd canon r.public_but_private_name api }
        else r
      { r1 with undocumented_public_apis := setAdd canon r1.undocumented_public_apis api }
  else if api.is_developer then r
  else if api.is_deprecated then
    if dictContains api_in_docs p.1 then
      { r with deprecated_documented_apis := setAdd canon r.deprecated_documented_apis api }
    else
      { r with undocumented_deprecated_public_apis :=
          setAdd canon r.undocumented_deprecated_public_apis api }
  else
    if dictContains api_in_docs p.1 then
      { r with private_documented_apis := setAdd canon r.private_documented_apis api }
    else r

/-- Python `_validate_documented_public_apis`: fold the loop body over the
code-side inventory (an association list standing for the dict), starting
from six empty sets. The `white_list_apis` parameter is accepted and, as
in the source, never used. -/
def validateDocumentedPublicApis (canon : String → String)
    (api_in_codes : List (String × API)) (api_in_docs : List (String × API))
    (white_list_apis : List String) : ValidationResult :=
  api_in_codes.foldl (validateStep canon api_in_docs)
    { good_apis := []
      private_documented_apis := []
      deprecated_documented_apis := []
      undocumented_public_apis := []
      undocumented_deprecated_public_apis := []
      public_but_private_name := [] }

/-- Branch condition putting an entry into `good_apis`. -/
def goodCond (docs : List (String × API)) (p : String × API) : Bool :=
  p.2.is_public && dictContains docs p.1

/-- Branch condition putting an entry into `undocumented_public_apis`. -/
def undocCond (docs : List (String × API)) (p : String × API) : Bool :=
  p.2.is_public && !dictContains docs p.1

/-- Branch condition putting an entry into `public_but_private_name`. -/
def pbpnCond (docs : List (String × API)) (p : String × API) : Bool :=
  p.2.is_public && !dictContains docs p.1 && p.2.has_private_name

/-- Branch condition putting an entry into `deprecated_documented_apis`. -/
def ddCond (docs : List (String × API)) (p : String × API) : Bool :=
  !p.2.is_public && !p.2.is_developer && p.2.is_deprecated && dictContains docs p.1

/-- Branch condition putting an entry into
`undocumented_deprecated_public_apis`. -/
def uddCond (docs : List (String × API)) (p : String × API) : Bool :=
  !p.2.is_public && !p.2.is_developer && p.2.is_deprecated && !dictContains docs p.1

/-- Branch condition putting an entry into `private_documented_apis`. -/
def pdCond (docs : List (String × API)) (p : String × API) : Bool :=
  !p.2.is_public && !p.2.is_developer && !p.2.is_deprecated && dictContains docs p.1

/-- Number of the five exclusive output sets that contain an entry
(`public_but_private_name` is the additive sixth and is not counted). -/
def inFiveCount (canon : String → String) (a : API) (r : ValidationResult) : Nat :=
  (if setMem canon a r.good_apis then 1 else 0) +
  (if setMem canon a r.private_documented_apis then 1 else 0) +
  (if setMem canon a r.deprecated_documented_apis then 1 else 0) +
  (if setMem canon a r.undocumented_public_apis then 1 else 0) +
  (if setMem canon a r.undocumented_deprecated_public_apis then 1 else 0)

/-- A well-formed reference name: non-empty and without a trailing
separator. -/
def goodName (s : String) : Prop :=
  s ≠ ⟨[]⟩ ∧ s.data.getLast? ≠ some dotChar

/-- Hypothesis form for the amended name invariant: every non-blank line
of a document captures a non-degenerate identifier (non-empty, no trailing
separator, after stripping and marker removal). -/
def goodLines (ls : List String) : Prop :=
  ∀ l ∈ ls, pyStrip l ≠ ⟨[]⟩ →
    summaryAttr l ≠ ⟨[]⟩ ∧ (summaryAttr l).data.getLast? ≠ some dotChar

/-- Empty initial accumulator of the reconciler fold. -/
def emptyResult : ValidationResult :=
  { good_apis := []
    private_documented_apis := []
    deprecated_documented_apis := []
    undocumented_public_apis := []
    undocumented_deprecated_public_apis := []
    public_but_private_name := [] }

/-- Concrete autoclass directive with a shortname marker. -/
def autoclassWidgetLine : String := ".. autoclass:: ~pkg.Widget"

/-- Concrete active namespace used in the parsing claims. -/
def pkgModStr : String := "pkg.mod"

/-- Concrete autosummary block of the list-block parsing claim: header,
option line, blank line, two indented reference lines, terminator. -/
def docListBlock : String :=
  ".. autosummary::\n    :nosignatures:\n\n    ~pkg.foo\n    pkg.bar\nother_text"

/-- The list-block document as file lines, preceded by a `currentmodule`
directive that activates the namespace. -/
def fileListBlock : List String :=
  [".. currentmodule:: pkg.mod", ".. autosummary::", "    :nosignatures:", "",
   "    ~pkg.foo", "    pkg.bar", "other_text"]

/-- Same file, with the block terminator itself an autoclass directive, to
observe that the terminator line is re-examined by the main loop. -/
def fileListBlockClassEnd : List String :=
  [".. currentmodule:: pkg.mod", ".. autosummary::", "    :nosignatures:", "",
   "    ~pkg.foo", "    pkg.bar", ".. autoclass:: baz"]

/-- A header-only autoclass line (no identifier). -/
def headerOnlyLine : String := ".. autoclass::"

/-- A header-only autoclass line with trailing spaces. -/
def headerOnlySpaced : String := ".. autoclass::   "

/-- An autosummary block whose reference line is a bare shortname marker,
capturing an empty identifier. -/
def tildeDoc : String := ".. autosummary::\n    ~"

/-- An autosummary block with one well-formed reference line. -/
def goodDoc : String := ".. autosummary::\n    ~pkg.foo"

/-- An environment with no importable modules and no attributes: the
empty module name raises `ValueError` (uncaught), any other module name
raises `ModuleNotFoundError`, attribute lookups raise
`AttributeError`. -/
def env0 : Env :=
  { importModule := fun s =>
      if s = (⟨[]⟩ : String) then Except.error PyExn.valueError
      else Except.error PyExn.moduleNotFound
    moduleAttr := fun _ _ => Except.error PyExn.attributeError
    objAttr := fun _ _ => Except.error PyExn.attributeError }

/-- A two-segment name over a nonexistent namespace. -/
def nosuchName : String := "nosuchpkg.foo"

/-- The entry carrying `nosuchName`. -/
def apiNosuch : API :=
  { name := nosuchName
    annotation_type := AnnotationType.PUBLIC_API
    code_type := CodeType.CLASS }

/-- Three-segment unresolvable names and their entries. -/
def abcName : String := "a.b.c"

/-- A second three-segment unresolvable name. -/
def abdName : String := "a.b.d"

/-- Entry carrying `abcName`. -/
def apiAbc : API :=
  { name := abcName
    annotation_type := AnnotationType.PUBLIC_API
    code_type := CodeType.FUNCTION }

/-- Entry carrying `abdName`. -/
def apiAbd : API :=
  { name := abdName
    annotation_type := AnnotationType.PUBLIC_API
    code_type := CodeType.FUNCTION }

/-- The class object of the coherent witness environment. -/
def objC : PyObj := { module_ := "m", qualname := "C", name_ := "C" }

/-- Module name of the witness environment. -/
def mStr : String := "m"

/-- Class attribute name of the witness environment. -/
def cStr : String := "C"

/-- Alias attribute name of the witness environment. -/
def aliasStr : String := "Alias"

/-- A small coherent environment: one module `m` with one class `C`, also
reachable under the alias attribute name `Alias`; no object attributes. -/
def envW : Env :=
  { importModule := fun s =>
      if s = mStr then Except.ok ()
      else if s = (⟨[]⟩ : String) then Except.error PyExn.valueError
      else Except.error PyExn.moduleNotFound
    moduleAttr := fun md a =>
      if md = mStr ∧ (a = cStr ∨ a = aliasStr) then Except.ok objC
      else Except.error PyExn.attributeError
    objAttr := fun _ _ => Except.error PyExn.attributeError }

/-- Canonical name of the witness class. -/
def mcName : String := "m.C"

/-- Alias path of the witness class. -/
def maliasName : String := "m.Alias"

/-- Entry referencing the witness class through its alias. -/
def apiAlias : API :=
  { name := maliasName
    annotation_type := AnnotationType.PUBLIC_API
    code_type := CodeType.CLASS }

/-- Entry referencing the witness class at its defining location. -/
def apiDefining : API :=
  { name := mcName
    annotation_type := AnnotationType.PUBLIC_API
    code_type := CodeType.CLASS }

/-- Identity canonicalization used by the reconciler witnesses. -/
def canonW : String → String := fun s => s

/-- First code-inventory key of the reconciler witnesses. -/
def aKeyW : String := "pkg.a"

/-- Second code-inventory key of the reconciler witnesses. -/
def bKeyW : String := "pkg.b"

/-- Concrete code-side inventory for the reconciler witnesses: one public
entry and one deprecated entry, keyed by their (identity-canonical)
names. -/
def codesW : List (String × API) :=
  [(aKeyW, { name := aKeyW
             annotation_type := AnnotationType.PUBLIC_API
             code_type := CodeType.CLASS }),
   (bKeyW, { name := bKeyW
             annotation_type := AnnotationType.DEPRECATED
             code_type := CodeType.FUNCTION })]

/-- Concrete doc-side inventory for the reconciler witnesses: only the
public entry is documented. -/
def docsW : List (String × API) :=
  [(aKeyW, { name := aKeyW
             annotation_type := AnnotationType.PUBLIC_API
             code_type := CodeType.CLASS })]

/-- The public documented entry of `codesW`, as a keyed pair. -/
def pairW : String × API :=
  (aKeyW, { name := aKeyW
            annotation_type := AnnotationType.PUBLIC_API
            code_type := CodeType.CLASS })

theorem takeWhile_split (l2 : List Char) :
    ∀ l1 : List Char, (∀ c ∈ l1, (c != dotChar) = true) →
      (l1 ++ dotChar :: l2).takeWhile (fun c => c != dotChar) = l1 ∧
      (l1 ++ dotChar :: l2).dropWhile (fun c => c != dotChar) = dotChar :: l2 := by
  intro l1
  induction l1 with
  | nil =>
    intro _
    constructor
    · simp [List.takeWhile]
    · simp [List.dropWhile]
  | cons c t ih =>
    intro h
    have hc : (c != dotChar) = true := h c (by simp)
    have ht := ih (fun x hx => h x (by simp [hx]))
    constructor
    · simp [List.takeWhile, hc, ht.1]
    · simp [List.dropWhile, hc, ht.2]

theorem stringNeEmpty (s : String) (h : s.data ≠ []) : s ≠ ⟨[]⟩ := by
  intro he
  apply h
  rw [he]

theorem rpartitionDot_append (a b : String) (hdf : dotFree b = true) :
    rpartitionDot (a ++ dotStr ++ b) = (a, b) := by
  have hdata : (a ++ dotStr ++ b).data = a.data ++ dotChar :: b.data := by
    have : dotStr.data = [dotChar] := by decide
    simp [String.data_append, this]
  have hbrev : ∀ c ∈ b.data.reverse, (c != dotChar) = true := by
    intro c hc
    rw [List.mem_reverse] at hc
    exact List.all_eq_true.mp hdf c hc
  have hrev : (a ++ dotStr ++ b).data.reverse = b.data.reverse ++ dotChar :: a.data.reverse := by
    simp [hdata]
  have hsplit := takeWhile_split a.data.reverse b.data.reverse hbrev
  unfold rpartitionDot
  simp only [hrev, hsplit.1, hsplit.2, List.reverse_reverse]

theorem goodName_join (module : Option String) (x : String)
    (h1 : x ≠ ⟨[]⟩) (h2 : x.data.getLast? ≠ some dotChar) :
    goodName (pyJoinModule module x) := by
  have hxd : x.data ≠ [] := by
    intro he
    apply h1
    cases x
    simp at he
    rw [he]
  cases module with
  | none => exact ⟨h1, h2⟩
  | some m =>
    by_cases hm : m.isEmpty
    · simp [pyJoinModule, hm]
      exact ⟨h1, h2⟩
    · simp [pyJoinModule, hm]
      constructor
      · intro he
        have : (m ++ dotStr ++ x).data = [] := by rw [he]
        simp [String.data_append] at this
        exact hxd this.2.2
      · rw [String.data_append, String.data_append]
        rw [List.append_assoc]
        rw [List.getLast?_append]
        rw [List.getLast?_append]
        cases hgl : x.data.getLast? with
        | none => simp at hgl; exact absurd hgl hxd
        | some c =>
          simp [hgl]
          intro hc
          apply h2
          rw [hgl, hc]

theorem autosummaryGo_good (module : Option String) :
    ∀ ls : List String, goodLines ls →
      ∀ api ∈ autosummaryGo module ls, goodName api.name := by
  intro ls
  induction ls with
  | nil => intro _ api h; simp [autosummaryGo] at h
  | cons line rest ih =>
    intro hg api hmem
    have hgrest : goodLines rest := fun l hl => hg l (by simp [hl])
    unfold autosummaryGo at hmem
    by_cases h1 : line == sphinxAutosummaryHeader
    · rw [if_pos h1] at hmem
      exact ih hgrest api hmem
    · rw [if_neg h1] at hmem
      by_cases h2 : pyStartsWith (pyStrip line) colonStr
      · rw [if_pos h2] at hmem
        exact ih hgrest api hmem
      · rw [if_neg h2] at hmem
        by_cases h3 : (pyStrip line).isEmpty
        · rw [if_pos h3] at hmem
          exact ih hgrest api hmem
        · rw [if_neg h3] at hmem
          by_cases h4 : !startsWithWs line
          · rw [if_pos h4] at hmem
            simp at hmem
          · rw [if_neg h4] at hmem
            have hstrip : pyStrip line ≠ ⟨[]⟩ := by
              intro he
              apply h3
              rw [he]
              rfl
            have hid := hg line (by simp) hstrip
            rcases List.mem_cons.mp hmem with hhd | htl
            · rw [hhd]
              exact goodName_join module (summaryAttr line) hid.1 hid.2
            · exact ih hgrest api htl

theorem from_autosummary_good (doc : String) (module : Option String)
    (hg : goodLines (pySplitlines doc)) :
    ∀ api ∈ from_autosummary doc module, goodName api.name := by
  intro api hmem
  unfold from_autosummary at hmem
  cases hls : pySplitlines doc with
  | nil => rw [hls] at hmem; simp at hmem
  | cons first rest =>
    rw [hls] at hmem
    rw [hls] at hg
    dsimp only at hmem
    by_cases hh : pyStrip first == sphinxAutosummaryHeader
    · rw [if_pos hh] at hmem
      exact autosummaryGo_good module (first :: rest) hg api hmem
    · rw [if_neg hh] at hmem
      simp at hmem

theorem from_autoclass_good (doc : String) (module : Option String)
    (hid1 : autoclassIdent (pyStrip doc) ≠ ⟨[]⟩)
    (hid2 : (autoclassIdent (pyStrip doc)).data.getLast? ≠ some dotChar) :
    ∀ api ∈ (from_autoclass doc module).toList, goodName api.name := by
  intro api hmem
  unfold from_autoclass at hmem
  by_cases hh : !pyStartsWith (pyStrip doc) sphinxAutoclassHeader
  · simp only [if_pos hh] at hmem
    simp at hmem
  · simp only [if_neg hh] at hmem
    simp at hmem
    rw [hmem]
    exact goodName_join module (autoclassIdent (pyStrip doc)) hid1 hid2

/-- Amended C4 core: a header-only autoclass line yields exactly one Class
reference whose captured identifier is empty. -/
theorem from_autoclass_headerOnly (line : String) (module : Option String)
    (h : pyStrip line = sphinxAutoclassHeader) :
    from_autoclass line module =
      some { name := pyJoinModule module ⟨[]⟩
             annotation_type := AnnotationType.PUBLIC_API
             code_type := CodeType.CLASS } := by
  unfold from_autoclass
  rw [h]
  rfl

theorem canonicalNameOf_fallback (env : Env) (name : String) (e1 e2 : PyExn)
    (h1 : attempt1 env name = Except.error e1) (hc1 : caughtExn e1 = true)
    (h2 : attempt2 env name = Except.error e2) (hc2 : caughtExn e2 = true) :
    canonicalNameOf env name = Except.ok name := by
  unfold canonicalNameOf
  rw [h1]
  simp [hc1, h2, hc2]

theorem canonicalNameOf_attempt1 (env : Env) (name : String) (obj : PyObj)
    (h : attempt1 env name = Except.ok obj) :
    canonicalNameOf env name = Except.ok (obj.module_ ++ dotStr ++ obj.qualname) := by
  unfold canonicalNameOf
  rw [h]

theorem canonicalNameOf_attempt2 (env : Env) (name : String) (e1 : PyExn)
    (cls meth : PyObj)
    (h1 : attempt1 env name = Except.error e1) (hc1 : caughtExn e1 = true)
    (h2 : attempt2 env name = Except.ok (cls, meth)) :
    canonicalNameOf env name =
      Except.ok (cls.module_ ++ dotStr ++ cls.qualname ++ dotStr ++ meth.name_) := by
  unfold canonicalNameOf
  rw [h1]
  simp [hc1, h2]

theorem attempt1_components (env : Env) (name : String) (obj : PyObj)
    (h : attempt1 env name = Except.ok obj) :
    env.moduleAttr (rpartitionDot name).1 (rpartitionDot name).2 = Except.ok obj := by
  unfold attempt1 at h
  dsimp only at h
  cases him : env.importModule (rpartitionDot name).1 with
  | error e => rw [him] at h; simp at h
  | ok u => rw [him] at h; dsimp only at h; exact h

theorem attempt2_components (env : Env) (name : String) (cls meth : PyObj)
    (h : attempt2 env name = Except.ok (cls, meth)) :
    env.moduleAttr (rpartitionDot (rpartitionDot name).1).1
        (rpartitionDot (rpartitionDot name).1).2 = Except.ok cls ∧
    env.objAttr cls (rpartitionDot name).2 = Except.ok meth := by
  unfold attempt2 at h
  dsimp only at h
  cases him : env.importModule (rpartitionDot (rpartitionDot name).1).1 with
  | error e => rw [him] at h; simp at h
  | ok u =>
    rw [him] at h
    dsimp only at h
    cases hma : env.moduleAttr (rpartitionDot (rpartitionDot name).1).1
        (rpartitionDot (rpartitionDot name).1).2 with
    | error e => rw [hma] at h; simp at h
    | ok c =>
      rw [hma] at h
      dsimp only at h
      cases hoa : env.objAttr c (rpartitionDot name).2 with
      | error e => rw [hoa] at h; simp at h
      | ok m =>
        rw [hoa] at h
        dsimp only at h
        have hp : (c, m) = (cls, meth) := by injection h
        have h1 : c = cls := congrArg Prod.fst hp
        have h2 : m = meth := congrArg Prod.snd hp
        rw [← h1, ← h2]
        exact ⟨rfl, hoa⟩

/-- Resolving a plain canonical location `module_.qualname` of an object
obtained from a coherent environment: the first attempt succeeds and
returns the object itself. -/
theorem attempt1_selfLoc (env : Env) (hc : Coherent env) (m a : String) (obj : PyObj)
    (h : env.moduleAttr m a = Except.ok obj) :
    attempt1 env (obj.module_ ++ dotStr ++ obj.qualname) = Except.ok obj := by
  obtain ⟨hm, hq, hdf, him, hma⟩ := hc.modAttrSelf m a obj h
  have hr : rpartitionDot (obj.module_ ++ dotStr ++ obj.qualname) = (obj.module_, obj.qualname) :=
    rpartitionDot_append obj.module_ obj.qualname hdf
  unfold attempt1
  rw [hr]
  simp only
  rw [him, hma]

/-- Resolving a method-style canonical location
`module_.qualname.methname` in a coherent environment: the first attempt
fails with a caught error and the second attempt returns the class and the
method themselves, so the canonical name reproduces itself. -/
theorem canonicalNameOf_methodLoc (env : Env) (hc : Coherent env)
    (m a b : String) (cls meth : PyObj)
    (hcls : env.moduleAttr m a = Except.ok cls)
    (hmeth : env.objAttr cls b = Except.ok meth) :
    canonicalNameOf env (cls.module_ ++ dotStr ++ cls.qualname ++ dotStr ++ meth.name_) =
      Except.ok (cls.module_ ++ dotStr ++ cls.qualname ++ dotStr ++ meth.name_) := by
  obtain ⟨hm, hq, hdf, him, hma⟩ := hc.modAttrSelf m a cls hcls
  obtain ⟨hn, hndf, hoa⟩ := hc.objAttrSelf cls b meth hmeth
  have hnm := hc.clsNotModule m a cls hcls
  have hr1 : rpartitionDot (cls.module_ ++ dotStr ++ cls.qualname ++ dotStr ++ meth.name_) =
      (cls.module_ ++ dotStr ++ cls.qualname, meth.name_) :=
    rpartitionDot_append (cls.module_ ++ dotStr ++ cls.qualname) meth.name_ hndf
  have hr2 : rpartitionDot (cls.module_ ++ dotStr ++ cls.qualname) =
      (cls.module_, cls.qualname) :=
    rpartitionDot_append cls.module_ cls.qualname hdf
  have ha1 : attempt1 env (cls.module_ ++ dotStr ++ cls.qualname ++ dotStr ++ meth.name_) =
      Except.error PyExn.moduleNotFound := by
    unfold attempt1
    rw [hr1]
    dsimp only
    rw [hnm]
  have ha2 : attempt2 env (cls.module_ ++ dotStr ++ cls.qualname ++ dotStr ++ meth.name_) =
      Except.ok (cls, meth) := by
    unfold attempt2
    rw [hr1]
    dsimp only
    rw [hr2]
    dsimp only
    rw [him]
    dsimp only
    rw [hma]
    dsimp only
    rw [hoa]
  exact canonicalNameOf_attempt2 env _ PyExn.moduleNotFound cls meth ha1 rfl ha2

/-- Idempotence of canonicalization over a coherent environment. -/
theorem canonicalNameOf_idem (env : Env) (hc : Coherent env) (name r : String)
    (h : canonicalNameOf env name = Except.ok r) :
    canonicalNameOf env r = Except.ok r := by
  unfold canonicalNameOf at h
  cases ha1 : attempt1 env name with
  | ok obj =>
    rw [ha1] at h
    dsimp only at h
    have hr : r = obj.module_ ++ dotStr ++ obj.qualname := by
      injection h with hh
      exact hh.symm
    have hma := attempt1_components env name obj ha1
    have hself := attempt1_selfLoc env hc (rpartitionDot name).1 (rpartitionDot name).2 obj hma
    rw [hr]
    exact canonicalNameOf_attempt1 env _ obj hself
  | error e1 =>
    rw [ha1] at h
    dsimp only at h
    by_cases hc1 : caughtExn e1
    · rw [if_pos hc1] at h
      cases ha2 : attempt2 env name with
      | ok cm =>
        rw [ha2] at h
        dsimp only at h
        have hr : r = cm.1.module_ ++ dotStr ++ cm.1.qualname ++ dotStr ++ cm.2.name_ := by
          injection h with hh
          exact hh.symm
        have hcm : attempt2 env name = Except.ok (cm.1, cm.2) := by rw [ha2]
        have hcomp := attempt2_components env name cm.1 cm.2 hcm
        rw [hr]
        exact canonicalNameOf_methodLoc env hc _ _ _ cm.1 cm.2 hcomp.1 hcomp.2
      | error e2 =>
        rw [ha2] at h
        dsimp only at h
        by_cases hc2 : caughtExn e2
        · rw [if_pos hc2] at h
          have hr : r = name := by
            injection h with hh
            exact hh.symm
          rw [hr]
          unfold canonicalNameOf
          rw [ha1]
          dsimp only
          rw [if_pos hc1, ha2]
          dsimp only
          rw [if_pos hc2]
        · rw [if_neg hc2] at h
          simp at h
    · rw [if_neg hc1] at h
      simp at h

theorem setMem_setAdd (canon : String → String) (s : List API) (a b : API) :
    setMem canon a (setAdd canon s b) =
      (setMem canon a s || (canon b.name == canon a.name)) := by
  unfold setAdd
  by_cases hin : s.any (fun x => canon x.name == canon b.name)
  · rw [if_pos hin]
    by_cases hab : canon b.name == canon a.name
    · have hmem : setMem canon a s = true := by
        rcases List.any_eq_true.mp hin with ⟨x, hx, hxb⟩
        apply List.any_eq_true.mpr
        refine ⟨x, hx, ?_⟩
        have hxb' : canon x.name = canon b.name := by
          exact beq_iff_eq.mp hxb
        have hab' : canon b.name = canon a.name := by
          exact beq_iff_eq.mp hab
        simp [hxb', hab']
      rw [hmem, hab]
      rfl
    · have hab' : (canon b.name == canon a.name) = false := by
        exact Bool.not_eq_true _ ▸ by simpa using hab
      rw [hab']
      simp [setMem]
  · rw [if_neg hin]
    unfold setMem
    rw [List.any_cons]
    exact Bool.or_comm _ _

theorem setMem_nil (canon : String → String) (a : API) : setMem canon a [] = false := rfl

theorem annBeqEval (x y : AnnotationType) : (x == y) = decide (x = y) := by
  cases x <;> cases y <;> rfl

theorem step_mem (canon : String → String) (docs : List (String × API))
    (r : ValidationResult) (p : String × API) (a : API) :
    (setMem canon a (validateStep canon docs r p).good_apis =
       (setMem canon a r.good_apis || ((canon p.2.name == canon a.name) && goodCond docs p))) ∧
    (setMem canon a (validateStep canon docs r p).private_documented_apis =
       (setMem canon a r.private_documented_apis || ((canon p.2.name == canon a.name) && pdCond docs p))) ∧
    (setMem canon a (validateStep canon docs r p).deprecated_documented_apis =
       (setMem canon a r.deprecated_documented_apis || ((canon p.2.name == canon a.name) && ddCond docs p))) ∧
    (setMem canon a (validateStep canon docs r p).undocumented_public_apis =
       (setMem canon a r.undocumented_public_apis || ((canon p.2.name == canon a.name) && undocCond docs p))) ∧
    (setMem canon a (validateStep canon docs r p).undocumented_deprecated_public_apis =
       (setMem canon a r.undocumented_deprecated_public_apis || ((canon p.2.name == canon a.name) && uddCond docs p))) ∧
    (setMem canon a (validateStep canon docs r p).public_but_private_name =
       (setMem canon a r.public_but_private_name || ((canon p.2.name == canon a.name) && pbpnCond docs p))) := by
  unfold validateStep goodCond pdCond ddCond undocCond uddCond pbpnCond
  unfold API.is_public API.is_developer API.is_deprecated
  cases hann : p.2.annotation_type <;>
    by_cases hd : dictContains docs p.1 <;>
    by_cases hp : p.2.has_private_name <;>
      simp [hann, hd, hp, setMem_setAdd, annBeqEval, Bool.and_comm, Bool.and_assoc, Bool.or_comm]

theorem foldl_mem (canon : String → String) (docs : List (String × API)) (a : API) :
    ∀ (codes : List (String × API)) (r : ValidationResult),
    (setMem canon a (codes.foldl (validateStep canon docs) r).good_apis =
       (setMem canon a r.good_apis ||
        codes.any (fun p => (canon p.2.name == canon a.name) && goodCond docs p))) ∧
    (setMem canon a (codes.foldl (validateStep canon docs) r).private_documented_apis =
       (setMem canon a r.private_documented_apis ||
        codes.any (fun p => (canon p.2.name == canon a.name) && pdCond docs p))) ∧
    (setMem canon a (codes.foldl (validateStep canon docs) r).deprecated_documented_apis =
       (setMem canon a r.deprecated_documented_apis ||
        codes.any (fun p => (canon p.2.name == canon a.name) && ddCond docs p))) ∧
    (setMem canon a (codes.foldl (validateStep canon docs) r).undocumented_public_apis =
       (setMem canon a r.undocumented_public_apis ||
        codes.any (fun p => (canon p.2.name == canon a.name) && undocCond docs p))) ∧
    (setMem canon a (codes.foldl (validateStep canon docs) r).undocumented_deprecated_public_apis =
       (setMem canon a r.undocumented_deprecated_public_apis ||
        codes.any (fun p => (canon p.2.name == canon a.name) && uddCond docs p))) ∧
    (setMem canon a (codes.foldl (validateStep canon docs) r).public_but_private_name =
       (setMem canon a r.public_but_private_name ||
        codes.any (fun p => (canon p.2.name == canon a.name) && pbpnCond docs p))) := by
  intro codes
  induction codes with
  | nil => intro r; simp
  | cons p t ih =>
    intro r
    rw [List.foldl_cons]
    have hstep := step_mem canon docs r p a
    have hi := ih (validateStep canon docs r p)
    refine ⟨?_, ?_, ?_, ?_, ?_, ?_⟩
    · rw [hi.1, hstep.1, List.any_cons, Bool.or_assoc]
    · rw [hi.2.1, hstep.2.1, List.any_cons, Bool.or_assoc]
    · rw [hi.2.2.1, hstep.2.2.1, List.any_cons, Bool.or_assoc]
    · rw [hi.2.2.2.1, hstep.2.2.2.1, List.any_cons, Bool.or_assoc]
    · rw [hi.2.2.2.2.1, hstep.2.2.2.2.1, List.any_cons, Bool.or_assoc]
    · rw [hi.2.2.2.2.2, hstep.2.2.2.2.2, List.any_cons, Bool.or_assoc]

/-- Keys of an association list standing for a Python dict are unique, so
two entries with the same key coincide. -/
theorem key_inj (codes : List (String × API))
    (hnodup : (codes.map Prod.fst).Nodup) :
    ∀ p ∈ codes, ∀ q ∈ codes, p.1 = q.1 → p = q := by
  induction codes with
  | nil => intro p hp; simp at hp
  | cons x t ih =>
    rw [List.map_cons, List.nodup_cons] at hnodup
    intro p hp q hq hpq
    rcases List.mem_cons.mp hp with hp1 | hp2 <;>
      rcases List.mem_cons.mp hq with hq1 | hq2
    · rw [hp1, hq1]
    · exfalso
      apply hnodup.1
      rw [hp1] at hpq
      rw [hpq]
      exact List.mem_map.mpr ⟨q, hq2, rfl⟩
    · exfalso
      apply hnodup.1
      rw [hq1] at hpq
      rw [← hpq]
      exact List.mem_map.mpr ⟨p, hp2, rfl⟩
    · exact ih hnodup.2 p hp2 q hq2 hpq

theorem any_hit_eq (canon : String → String) (codes : List (String × API))
    (hkeys : ∀ p ∈ codes, canon p.2.name = p.1)
    (hnodup : (codes.map Prod.fst).Nodup)
    (k : (String × API) → Bool) (p : String × API) (hp : p ∈ codes) :
    codes.any (fun q => (canon q.2.name == canon p.2.name) && k q) = k p := by
  cases hk : k p with
  | true =>
    apply List.any_eq_true.mpr
    exact ⟨p, hp, by simp [hk]⟩
  | false =>
    apply List.any_eq_false.mpr
    intro q hq
    by_cases hbe : canon q.2.name = canon p.2.name
    · have hqp : q = p := by
        apply key_inj codes hnodup q hq p hp
        rw [← hkeys q hq, ← hkeys p hp]
        exact hbe
      rw [hqp, hk]
      simp
    · simp [hbe]

theorem hit_pair (canon : String → String) (codes : List (String × API))
    (hkeys : ∀ p ∈ codes, canon p.2.name = p.1)
    (hnodup : (codes.map Prod.fst).Nodup)
    (k1 k2 : (String × API) → Bool)
    (hex : ∀ p, ¬(k1 p = true ∧ k2 p = true)) (a : API) :
    ¬(codes.any (fun p => (canon p.2.name == canon a.name) && k1 p) = true ∧
      codes.any (fun p => (canon p.2.name == canon a.name) && k2 p) = true) := by
  rintro ⟨h1, h2⟩
  rcases List.any_eq_true.mp h1 with ⟨p, hp, hpk⟩
  rcases List.any_eq_true.mp h2 with ⟨q, hq, hqk⟩
  rw [Bool.and_eq_true] at hpk hqk
  have hpq : p = q := by
    apply key_inj codes hnodup p hp q hq
    rw [← hkeys p hp, ← hkeys q hq]
    rw [beq_iff_eq.mp hpk.1, beq_iff_eq.mp hqk.1]
  apply hex p
  rw [hpq] at hpk ⊢
  exact ⟨hpk.2, hqk.2⟩

/-- Mutual exclusivity of the five exclusive branch conditions. -/
theorem conds_exclusive (docs : List (String × API)) (p : String × API) :
    (¬(goodCond docs p = true ∧ pdCond docs p = true)) ∧
    (¬(goodCond docs p = true ∧ ddCond docs p = true)) ∧
    (¬(goodCond docs p = true ∧ undocCond docs p = true)) ∧
    (¬(goodCond docs p = true ∧ uddCond docs p = true)) ∧
    (¬(pdCond docs p = true ∧ ddCond docs p = true)) ∧
    (¬(pdCond docs p = true ∧ undocCond docs p = true)) ∧
    (¬(pdCond docs p = true ∧ uddCond docs p = true)) ∧
    (¬(ddCond docs p = true ∧ undocCond docs p = true)) ∧
    (¬(ddCond docs p = true ∧ uddCond docs p = true)) ∧
    (¬(undocCond docs p = true ∧ uddCond docs p = true)) := by
  unfold goodCond pdCond ddCond undocCond uddCond
  cases hd : dictContains docs p.1 <;>
    cases hpub : p.2.is_public <;>
    cases hdev : p.2.is_developer <;>
    cases hdep : p.2.is_deprecated <;>
    simp

theorem count_five_le_one (b1 b2 b3 b4 b5 : Bool)
    (h12 : ¬(b1 = true ∧ b2 = true)) (h13 : ¬(b1 = true ∧ b3 = true))
    (h14 : ¬(b1 = true ∧ b4 = true)) (h15 : ¬(b1 = true ∧ b5 = true))
    (h23 : ¬(b2 = true ∧ b3 = true)) (h24 : ¬(b2 = true ∧ b4 = true))
    (h25 : ¬(b2 = true ∧ b5 = true)) (h34 : ¬(b3 = true ∧ b4 = true))
    (h35 : ¬(b3 = true ∧ b5 = true)) (h45 : ¬(b4 = true ∧ b5 = true)) :
    ((if b1 then 1 else 0) + (if b2 then 1 else 0) + (if b3 then 1 else 0) +
     (if b4 then 1 else 0) + (if b5 then 1 else 0) : Nat) ≤ 1 := by
  cases b1 <;> cases b2 <;> cases b3 <;> cases b4 <;> cases b5 <;> simp_all

theorem pbpn_imp_undoc (docs : List (String × API)) (p : String × API)
    (h : pbpnCond docs p = true) : undocCond docs p = true := by
  unfold pbpnCond at h
  unfold undocCond
  rw [Bool.and_eq_true, Bool.and_eq_true] at h
  rw [Bool.and_eq_true]
  exact h.1

theorem validate_eq_foldl (canon : String → String)
    (codes docs : List (String × API)) (wl : List String) :
    validateDocumentedPublicApis canon codes docs wl =
      codes.foldl (validateStep canon docs) emptyResult := rfl

theorem coherent_envW : Coherent envW := by
  constructor
  · intro m a obj h
    unfold envW at h
    dsimp only at h
    by_cases hcond : m = mStr ∧ (a = cStr ∨ a = aliasStr)
    · rw [if_pos hcond] at h
      have hobj : obj = objC := by injection h with hh; exact hh.symm
      subst hobj
      refine ⟨by decide, by decide, by decide, ?_, ?_⟩
      · rfl
      · rfl
    · rw [if_neg hcond] at h
      simp at h
  · intro m a obj h
    unfold envW at h
    dsimp only at h
    by_cases hcond : m = mStr ∧ (a = cStr ∨ a = aliasStr)
    · rw [if_pos hcond] at h
      have hobj : obj = objC := by injection h with hh; exact hh.symm
      subst hobj
      rfl
    · rw [if_neg hcond] at h
      simp at h
  · intro o a meth h
    unfold envW at h
    dsimp only at h
    simp at h

/-- C10: the reconciler's result does not depend on the white-list
argument: `_validate_documented_public_apis` never consults
`white_list_apis`, so any two white-lists give identical six-tuples of
sets. -/
theorem whitelist_independence (canon : String → String)
    (api_in_codes api_in_docs : List (String × API)) (w1 w2 : List String) :
    validateDocumentedPublicApis canon api_in_codes api_in_docs w1 =
      validateDocumentedPublicApis canon api_in_codes api_in_docs w2 := rfl

/-- C3 counterexample: parsing `.. autoclass:: ~pkg.Widget` under the
namespace `pkg.mod` does not yield a reference named `pkg.mod.Widget`; the
shorten marker strips only the `~` character, not the `pkg.` path. -/
theorem autoclass_shortname_counterexample :
    from_autoclass autoclassWidgetLine (some pkgModStr) ≠
      some { name := "pkg.mod.Widget"
             annotation_type := AnnotationType.PUBLIC_API
             code_type := CodeType.CLASS } := by decide

/-- C3 amended: parsing `.. autoclass:: ~pkg.Widget` under the namespace
`pkg.mod` yields exactly one Class reference named `pkg.mod.pkg.Widget`:
the marker strips only the `~` character and the namespace is prepended to
the full remaining identifier. -/
theorem autoclass_shortname_amended :
    from_autoclass autoclassWidgetLine (some pkgModStr) =
      some { name := "pkg.mod.pkg.Widget"
             annotation_type := AnnotationType.PUBLIC_API
             code_type := CodeType.CLASS } := by decide

/-- C4 counterexample: the header-only line `.. autoclass::` does yield a
reference (with empty name), both from `from_autoclass` and from the full
file parse — the `if api` filter keeps it because a dataclass instance is
always truthy. -/
theorem autoclass_missing_ident_counterexample :
    from_autoclass headerOnlyLine none =
      some { name := ⟨[]⟩
             annotation_type := AnnotationType.PUBLIC_API
             code_type := CodeType.CLASS } ∧
    parseAutodocDirectives [headerOnlyLine] =
      [{ name := ⟨[]⟩
         annotation_type := AnnotationType.PUBLIC_API
         code_type := CodeType.CLASS }] := by decide

/-- C4 amended: for every autoclass directive line with no identifier
after the header (the stripped line is exactly the header), and for every
namespace state, parsing yields exactly one Class reference whose name is
the namespace-join of the empty identifier (the namespace followed by the
separator when a non-empty namespace is active, otherwise the empty
string); no exception is raised, and the full-file parser keeps the
degenerate entry. -/
theorem autoclass_missing_ident_amended :
    (∀ (line : String) (module : Option String),
       pyStrip line = sphinxAutoclassHeader →
       from_autoclass line module =
         some { name := pyJoinModule module ⟨[]⟩
                annotation_type := AnnotationType.PUBLIC_API
                code_type := CodeType.CLASS }) ∧
    parseAutodocDirectives [".. currentmodule:: pkg.mod", headerOnlyLine] =
      [{ name := "pkg.mod."
         annotation_type := AnnotationType.PUBLIC_API
         code_type := CodeType.CLASS }] := by
  constructor
  · intro line module h
    exact from_autoclass_headerOnly line module h
  · decide

/-- C4 witness: a concrete header-only line with trailing spaces, under an
active namespace, yields the degenerate `pkg.mod.`-named Class entry. -/
theorem autoclass_missing_ident_witness :
    pyStrip headerOnlySpaced = sphinxAutoclassHeader ∧
    from_autoclass headerOnlySpaced (some pkgModStr) =
      some { name := pyJoinModule (some pkgModStr) ⟨[]⟩
             annotation_type := AnnotationType.PUBLIC_API
             code_type := CodeType.CLASS } :=
  ⟨by decide, autoclass_missing_ident_amended.1 headerOnlySpaced (some pkgModStr) (by decide)⟩

/-- C5 counterexample: the autosummary block whose reference line is a
bare `~` produces a reference with empty name, which is not a well-formed
name. -/
theorem directive_name_invariant_counterexample :
    from_autosummary tildeDoc none =
      [{ name := ⟨[]⟩
         annotation_type := AnnotationType.PUBLIC_API
         code_type := CodeType.FUNCTION }] ∧
    ¬ goodName (⟨[]⟩ : String) := by
  constructor
  · decide
  · intro hg
    exact hg.1 rfl

/-- C5 amended: every raw reference produced by either grammar has a
non-empty name without a trailing separator, provided the captured
identifiers themselves are non-empty and have no trailing separator
(for the list grammar: on every non-blank line; for the single-reference
grammar: the text after the header). -/
theorem directive_name_invariant_amended :
    (∀ (doc : String) (module : Option String), goodLines (pySplitlines doc) →
       ∀ api ∈ from_autosummary doc module, goodName api.name) ∧
    (∀ (doc : String) (module : Option String),
       autoclassIdent (pyStrip doc) ≠ ⟨[]⟩ →
       (autoclassIdent (pyStrip doc)).data.getLast? ≠ some dotChar →
       ∀ api ∈ (from_autoclass doc module).toList, goodName api.name) := by
  constructor
  · intro doc module hg
    exact from_autosummary_good doc module hg
  · intro doc module h1 h2
    exact from_autoclass_good doc module h1 h2

/-- C5 witness: a concrete well-formed block yields only well-formed
names. -/
theorem directive_name_invariant_witness :
    goodLines (pySplitlines goodDoc) ∧
    (∀ api ∈ from_autosummary goodDoc none, goodName api.name) :=
  ⟨by unfold goodLines; decide,
   directive_name_invariant_amended.1 goodDoc none (by unfold goodLines; decide)⟩

/-- C6 counterexample: for the entry `nosuchpkg.foo` over an environment
with no modules, the first resolution attempt fails with a caught
`ModuleNotFoundError`, but the second attempt re-splits to an empty module
name, whose import raises an uncaught `ValueError`: canonicalization
raises instead of returning the raw name. -/
theorem canonical_unresolvable_counterexample :
    attempt1 env0 apiNosuch.name = Except.error PyExn.moduleNotFound ∧
    get_canonical_name env0 apiNosuch = Except.error PyExn.valueError ∧
    get_canonical_name env0 apiNosuch ≠ Except.ok apiNosuch.name := by
  refine ⟨rfl, rfl, ?_⟩
  intro h
  have h2 : get_canonical_name env0 apiNosuch = Except.error PyExn.valueError := rfl
  rw [h2] at h
  exact Except.noConfusion h

/-- C6 amended: when both ordered resolution attempts fail with errors the
source catches (`ModuleNotFoundError` or `AttributeError`),
canonicalization returns the raw name unchanged and raises no error;
consequently two such unresolvable entries with different raw names have
different canonical identities and are never unified. -/
theorem canonical_unresolvable_amended (env : Env) (a b : API) (e1 e2 e3 e4 : PyExn)
    (h1 : attempt1 env a.name = Except.error e1) (hc1 : caughtExn e1 = true)
    (h2 : attempt2 env a.name = Except.error e2) (hc2 : caughtExn e2 = true)
    (h3 : attempt1 env b.name = Except.error e3) (hc3 : caughtExn e3 = true)
    (h4 : attempt2 env b.name = Except.error e4) (hc4 : caughtExn e4 = true)
    (hne : a.name ≠ b.name) :
    get_canonical_name env a = Except.ok a.name ∧
    get_canonical_name env b = Except.ok b.name ∧
    get_canonical_name env a ≠ get_canonical_name env b := by
  have ha : get_canonical_name env a = Except.ok a.name :=
    canonicalNameOf_fallback env a.name e1 e2 h1 hc1 h2 hc2
  have hb : get_canonical_name env b = Except.ok b.name :=
    canonicalNameOf_fallback env b.name e3 e4 h3 hc3 h4 hc4
  refine ⟨ha, hb, ?_⟩
  rw [ha, hb]
  intro h
  injection h with hh
  exact hne hh

/-- C6 witness: two three-segment unresolvable names over the empty
environment both fail with caught errors, canonicalize to themselves, and
stay distinct. -/
theorem canonical_unresolvable_witness :
    attempt1 env0 apiAbc.name = Except.error PyExn.moduleNotFound ∧
    caughtExn PyExn.moduleNotFound = true ∧
    attempt2 env0 apiAbc.name = Except.error PyExn.moduleNotFound ∧
    attempt1 env0 apiAbd.name = Except.error PyExn.moduleNotFound ∧
    attempt2 env0 apiAbd.name = Except.error PyExn.moduleNotFound ∧
    apiAbc.name ≠ apiAbd.name ∧
    (get_canonical_name env0 apiAbc = Except.ok apiAbc.name ∧
     get_canonical_name env0 apiAbd = Except.ok apiAbd.name ∧
     get_canonical_name env0 apiAbc ≠ get_canonical_name env0 apiAbd) :=
  ⟨rfl, rfl, rfl, rfl, rfl, by decide,
   canonical_unresolvable_amended env0 apiAbc apiAbd
     PyExn.moduleNotFound PyExn.moduleNotFound PyExn.moduleNotFound PyExn.moduleNotFound
     rfl rfl rfl rfl rfl rfl rfl rfl (by decide)⟩

/-- C7: canonicalization over a coherent reflection environment is
idempotent: if an entry canonicalizes to `r`, then any entry whose name is
`r` canonicalizes to `r` unchanged. -/
theorem canonical_idempotence (env : Env) (hc : Coherent env) (a b : API) (r : String)
    (h : get_canonical_name env a = Except.ok r) (hb : b.name = r) :
    get_canonical_name env b = Except.ok r := by
  unfold get_canonical_name at h ⊢
  rw [hb]
  exact canonicalNameOf_idem env hc a.name r h

/-- C7 witness: in the concrete coherent environment, the alias entry
`m.Alias` canonicalizes to `m.C`, and the entry named `m.C` canonicalizes
to itself. -/
theorem canonical_idempotence_witness :
    Coherent envW ∧
    get_canonical_name envW apiAlias = Except.ok mcName ∧
    apiDefining.name = mcName ∧
    get_canonical_name envW apiDefining = Except.ok mcName :=
  ⟨coherent_envW, rfl, rfl,
   canonical_idempotence envW coherent_envW apiAlias apiDefining mcName rfl rfl⟩

/-- C8: two entries compare equal under `__eq__` exactly when their
canonical identities are equal strings, and the `__hash__` key (the hash
of the canonical name, for any string-hash function) agrees whenever the
canonical identities agree; raw names never enter the comparison. -/
theorem api_equality_by_canonical_name (env : Env) (a b : API) (ca cb : String)
    (ha : get_canonical_name env a = Except.ok ca)
    (hb : get_canonical_name env b = Except.ok cb) :
    (apiBeq env a b = Except.ok true ↔ ca = cb) ∧
    (∀ hf : String → Nat, ca = cb → apiHashWith hf env a = apiHashWith hf env b) := by
  constructor
  · unfold apiBeq
    simp [ha, hb, Bind.bind, Except.bind, pure, Except.pure, beq_iff_eq]
  · intro hf hcc
    unfold apiHashWith
    rw [ha, hb, hcc]

/-- C8 witness: the alias entry and the defining-location entry, whose raw
names differ, compare equal because both canonicalize to `m.C`. -/
theorem api_equality_witness :
    get_canonical_name envW apiAlias = Except.ok mcName ∧
    get_canonical_name envW apiDefining = Except.ok mcName ∧
    ((apiBeq envW apiAlias apiDefining = Except.ok true ↔ mcName = mcName) ∧
     (∀ hf : String → Nat, mcName = mcName →
        apiHashWith hf envW apiAlias = apiHashWith hf envW apiDefining)) :=
  ⟨rfl, rfl,
   api_equality_by_canonical_name envW apiAlias apiDefining mcName mcName rfl rfl⟩

/-- C9: the concrete autosummary block under the active namespace
`pkg.mod` yields exactly the two Function references `pkg.mod.pkg.foo` and
`pkg.mod.pkg.bar`; the terminator line is not consumed as a reference, and
the parser's main loop re-examines it (replacing it with an autoclass
directive yields the extra Class entry). -/
theorem list_block_parsing :
    from_autosummary docListBlock (some pkgModStr) =
      [{ name := "pkg.mod.pkg.foo"
         annotation_type := AnnotationType.PUBLIC_API
         code_type := CodeType.FUNCTION },
       { name := "pkg.mod.pkg.bar"
         annotation_type := AnnotationType.PUBLIC_API
         code_type := CodeType.FUNCTION }] ∧
    parseAutodocDirectives fileListBlock =
      [{ name := "pkg.mod.pkg.foo"
         annotation_type := AnnotationType.PUBLIC_API
         code_type := CodeType.FUNCTION },
       { name := "pkg.mod.pkg.bar"
         annotation_type := AnnotationType.PUBLIC_API
         code_type := CodeType.FUNCTION }] ∧
    parseAutodocDirectives fileListBlockClassEnd =
      [{ name := "pkg.mod.pkg.foo"
         annotation_type := AnnotationType.PUBLIC_API
         code_type := CodeType.FUNCTION },
       { name := "pkg.mod.pkg.bar"
         annotation_type := AnnotationType.PUBLIC_API
         code_type := CodeType.FUNCTION },
       { name := "pkg.mod.baz"
         annotation_type := AnnotationType.PUBLIC_API
         code_type := CodeType.CLASS }] := by decide

/-- C1: for a well-formed pair of inventories (keys are the canonical
names of their entries, and keys are unique, as in the dicts the caller
builds), every entry is in at most one of the five exclusive output sets
(so each non-developer entry lands in exactly the one its branch dictates,
or is dropped, and the five sets are pairwise disjoint), and
`public_but_private_name` is an additive subset of
`undocumented_public_apis`, never a seventh exclusive bucket. -/
theorem reconciler_totality_and_disjointness (canon : String → String)
    (codes docs : List (String × API)) (wl : List String)
    (hkeys : ∀ p ∈ codes, canon p.2.name = p.1)
    (hnodup : (codes.map Prod.fst).Nodup) :
    (∀ a : API, inFiveCount canon a (validateDocumentedPublicApis canon codes docs wl) ≤ 1) ∧
    (∀ a : API,
      setMem canon a (validateDocumentedPublicApis canon codes docs wl).public_but_private_name = true →
      setMem canon a (validateDocumentedPublicApis canon codes docs wl).undocumented_public_apis = true) := by
  constructor
  · intro a
    have hf := foldl_mem canon docs a codes emptyResult
    rw [validate_eq_foldl]
    unfold inFiveCount
    rw [hf.1, hf.2.1, hf.2.2.1, hf.2.2.2.1, hf.2.2.2.2.1]
    simp only [emptyResult, setMem_nil, Bool.false_or]
    have hex := fun p => conds_exclusive docs p
    apply count_five_le_one
    · exact hit_pair canon codes hkeys hnodup (goodCond docs) (pdCond docs)
        (fun p => (hex p).1) a
    · exact hit_pair canon codes hkeys hnodup (goodCond docs) (ddCond docs)
        (fun p => (hex p).2.1) a
    · exact hit_pair canon codes hkeys hnodup (goodCond docs) (undocCond docs)
        (fun p => (hex p).2.2.1) a
    · exact hit_pair canon codes hkeys hnodup (goodCond docs) (uddCond docs)
        (fun p => (hex p).2.2.2.1) a
    · exact hit_pair canon codes hkeys hnodup (pdCond docs) (ddCond docs)
        (fun p => (hex p).2.2.2.2.1) a
    · exact hit_pair canon codes hkeys hnodup (pdCond docs) (undocCond docs)
        (fun p => (hex p).2.2.2.2.2.1) a
    · exact hit_pair canon codes hkeys hnodup (pdCond docs) (uddCond docs)
        (fun p => (hex p).2.2.2.2.2.2.1) a
    · exact hit_pair canon codes hkeys hnodup (ddCond docs) (undocCond docs)
        (fun p => (hex p).2.2.2.2.2.2.2.1) a
    · exact hit_pair canon codes hkeys hnodup (ddCond docs) (uddCond docs)
        (fun p => (hex p).2.2.2.2.2.2.2.2.1) a
    · exact hit_pair canon codes hkeys hnodup (undocCond docs) (uddCond docs)
        (fun p => (hex p).2.2.2.2.2.2.2.2.2) a
  · intro a hmem
    have hf := foldl_mem canon docs a codes emptyResult
    rw [validate_eq_foldl] at hmem ⊢
    rw [hf.2.2.2.2.2] at hmem
    rw [hf.2.2.2.1]
    simp only [emptyResult, setMem_nil, Bool.false_or] at hmem ⊢
    rcases List.any_eq_true.mp hmem with ⟨q, hq, hqk⟩
    rw [Bool.and_eq_true] at hqk
    apply List.any_eq_true.mpr
    refine ⟨q, hq, ?_⟩
    rw [Bool.and_eq_true]
    exact ⟨hqk.1, pbpn_imp_undoc docs q hqk.2⟩

/-- C1 witness: the concrete two-entry inventories satisfy the
well-formedness hypotheses, and the conclusion holds for them. -/
theorem reconciler_totality_witness :
    (∀ p ∈ codesW, canonW p.2.name = p.1) ∧
    (codesW.map Prod.fst).Nodup ∧
    ((∀ a : API, inFiveCount canonW a (validateDocumentedPublicApis canonW codesW docsW []) ≤ 1) ∧
     (∀ a : API,
       setMem canonW a (validateDocumentedPublicApis canonW codesW docsW []).public_but_private_name = true →
       setMem canonW a (validateDocumentedPublicApis canonW codesW docsW []).undocumented_public_apis = true)) :=
  ⟨by decide, by decide,
   reconciler_totality_and_disjointness canonW codesW docsW [] (by decide) (by decide)⟩

/-- C2: over well-formed inventories, each code-side entry is classified
exactly by the ordered branches of the decision procedure: membership of
the entry in each output set equals the branch condition of that set
(public and documented in `good_apis`; public and undocumented in
`undocumented_public_apis`, additionally in `public_but_private_name` when
private-named; developer entries in no set; deprecated entries in
`deprecated_documented_apis` or `undocumented_deprecated_public_apis` by
documentation membership; unknown entries in `private_documented_apis`
when documented, otherwise in no set). -/
theorem reconciler_branch_classification (canon : String → String)
    (codes docs : List (String × API)) (wl : List String)
    (hkeys : ∀ p ∈ codes, canon p.2.name = p.1)
    (hnodup : (codes.map Prod.fst).Nodup)
    (p : String × API) (hp : p ∈ codes) :
    (setMem canon p.2 (validateDocumentedPublicApis canon codes docs wl).good_apis =
       goodCond docs p) ∧
    (setMem canon p.2 (validateDocumentedPublicApis canon codes docs wl).undocumented_public_apis =
       undocCond docs p) ∧
    (setMem canon p.2 (validateDocumentedPublicApis canon codes docs wl).public_but_private_name =
       pbpnCond docs p) ∧
    (setMem canon p.2 (validateDocumentedPublicApis canon codes docs wl).deprecated_documented_apis =
       ddCond docs p) ∧
    (setMem canon p.2 (validateDocumentedPublicApis canon codes docs wl).undocumented_deprecated_public_apis =
       uddCond docs p) ∧
    (setMem canon p.2 (validateDocumentedPublicApis canon codes docs wl).private_documented_apis =
       pdCond docs p) := by
  have hf := foldl_mem canon docs p.2 codes emptyResult
  rw [validate_eq_foldl]
  refine ⟨?_, ?_, ?_, ?_, ?_, ?_⟩
  · rw [hf.1]
    simp only [emptyResult, setMem_nil, Bool.false_or]
    exact any_hit_eq canon codes hkeys hnodup (goodCond docs) p hp
  · rw [hf.2.2.2.1]
    simp only [emptyResult, setMem_nil, Bool.false_or]
    exact any_hit_eq canon codes hkeys hnodup (undocCond docs) p hp
  · rw [hf.2.2.2.2.2]
    simp only [emptyResult, setMem_nil, Bool.false_or]
    exact any_hit_eq canon codes hkeys hnodup (pbpnCond docs) p hp
  · rw [hf.2.2.1]
    simp only [emptyResult, setMem_nil, Bool.false_or]
    exact any_hit_eq canon codes hkeys hnodup (ddCond docs) p hp
  · rw [hf.2.2.2.2.1]
    simp only [emptyResult, setMem_nil, Bool.false_or]
    exact any_hit_eq canon codes hkeys hnodup (uddCond docs) p hp
  · rw [hf.2.1]
    simp only [emptyResult, setMem_nil, Bool.false_or]
    exact any_hit_eq canon codes hkeys hnodup (pdCond docs) p hp

/-- C2 witness: the public documented entry of the concrete inventories is
classified into `good_apis` and nothing else. -/
theorem reconciler_branch_witness :
    (∀ p ∈ codesW, canonW p.2.name = p.1) ∧
    (codesW.map Prod.fst).Nodup ∧
    pairW ∈ codesW ∧
    ((setMem canonW pairW.2 (validateDocumentedPublicApis canonW codesW docsW []).good_apis =
        goodCond docsW pairW) ∧
     (setMem canonW pairW.2 (validateDocumentedPublicApis canonW codesW docsW []).undocumented_public_apis =
        undocCond docsW pairW) ∧
     (setMem canonW pairW.2 (validateDocumentedPublicApis canonW codesW docsW []).public_but_private_name =
        pbpnCond docsW pairW) ∧
     (setMem canonW pairW.2 (validateDocumentedPublicApis canonW codesW docsW []).deprecated_documented_apis =
        ddCond docsW pairW) ∧
     (setMem canonW pairW.2 (validateDocumentedPublicApis canonW codesW docsW []).undocumented_deprecated_public_apis =
        uddCond docsW pairW) ∧
     (setMem canonW pairW.2 (validateDocumentedPublicApis canonW codesW docsW []).private_documented_apis =
        pdCond docsW pairW)) :=
  ⟨by decide, by decide, by decide,
   reconciler_branch_classification canonW codesW docsW [] (by decide) (by decide) pairW (by decide)⟩
